import Mathlib

/-!
A shallow embedding of the `flask_api_posts` service: a REST CRUD API for a
single `Post` resource (`posts/api.py`), with a content-negotiation gate
(`posts/decorators.py`) and JSON-Schema validation of create payloads.

Machine-checked statements about the five route handlers follow the
definitions: list (`posts_get`), get-by-id (`post_get`), create
(`posts_post`), update (`posts_edit`) and delete (`post_delete`), each
wrapped by the `accept` gate (all routes) and the `require` gate
(create/update only).
-/

/-- JSON values, as parsed from request bodies and serialised into
response bodies. Numbers are modelled as integers (the payloads and
representations of this service never use fractional numbers). -/
inductive Json where
  | null : Json
  | bool : Bool → Json
  | num : Int → Json
  | str : String → Json
  | arr : List Json → Json
  | obj : List (String × Json) → Json

/-- Test for the JSON null value (a Python `None` stored in a column). -/
def Json.isNull : Json → Bool
  | Json.null => true
  | _ => false

/-- Test for a JSON string value. -/
def Json.isStr : Json → Bool
  | Json.str _ => true
  | _ => false

/-- Key access `data[k]` on a parsed JSON value, with Python dict
semantics: a missing key raises `KeyError`, and indexing a non-dict
value with a string key raises `TypeError`. An `Except.error` models the
exception escaping the handler. -/
def Json.index (j : Json) (k : String) : Except String Json :=
  match j with
  | Json.obj fields =>
    match fields.lookup k with
    | some v => Except.ok v
    | none => Except.error ("KeyError: " ++ k)
  | _ => Except.error ("TypeError: value is not subscriptable with key " ++ k)

mutual

/-- Modelled from the `jsonschema` library: the Python `repr` of a JSON
value as it is interpolated into validation error messages (the tests pin
`"32 is not of type 'string'"` for the payload value `32`). -/
def jsonRepr : Json → String
  | Json.null => "None"
  | Json.bool true => "True"
  | Json.bool false => "False"
  | Json.num n => toString n
  | Json.str s => "'" ++ s ++ "'"
  | Json.arr xs => "[" ++ jsonReprList xs ++ "]"
  | Json.obj fs => "\x7b" ++ jsonReprFields fs ++ "\x7d"

/-- Comma-separated `repr` of the elements of a JSON array. -/
def jsonReprList : List Json → String
  | [] => ""
  | [x] => jsonRepr x
  | x :: xs => jsonRepr x ++ ", " ++ jsonReprList xs

/-- Comma-separated `repr` of the key/value pairs of a JSON object. -/
def jsonReprFields : List (String × Json) → String
  | [] => ""
  | [(k, v)] => "'" ++ k ++ "': " ++ jsonRepr v
  | (k, v) :: xs => "'" ++ k ++ "': " ++ jsonRepr v ++ ", " ++ jsonReprFields xs

end

/-- Modelled from the spec: the `Post` entity of `models.py` (the module
is referenced by `posts/api.py` but absent from the provided sources).
A row with a server-assigned integer primary key plus `title` and `body`
columns. The columns store whatever value a handler assigns to them —
`posts_edit` writes raw payload values with no validation — so they are
modelled as JSON values; the spec's invariant that they always hold
non-null strings is a property to be checked, not a constraint the store
enforces. -/
structure Post where
  id : Nat
  title : Json
  body : Json

/-- Modelled from the spec: `Post.as_dictionary`, the JSON representation
`\x7bid, title, body\x7d` of a row, as asserted by the repository's tests. -/
def Post.as_dictionary (p : Post) : Json :=
  Json.obj [("id", Json.num p.id), ("title", p.title), ("body", p.body)]

/-- Modelled from the spec: the relational store behind
`database.session` (the module is absent from the provided sources).
`posts` holds the rows in insertion order; `nextId` is the autoincrement
counter for the server-assigned primary key (`id` is "server-assigned,
monotonically increasing"). -/
structure DB where
  posts : List Post
  nextId : Nat

/-- `session.query(models.Post).get(id)`: primary-key lookup. -/
def DB.get (db : DB) (id : Nat) : Option Post :=
  db.posts.find? (fun p => p.id == id)

/-- Modelled from the spec: `session.add` of a freshly constructed entity
followed by `session.commit()` assigns the next id and appends the row. -/
def DB.insert (db : DB) (title body : Json) : Post × DB :=
  let post : Post := ⟨db.nextId, title, body⟩
  (post, ⟨db.posts ++ [post], db.nextId + 1⟩)

/-- Modelled from the spec: `session.delete(post); session.commit()`
removes the row with the given primary key (primary keys are unique in a
relational store). -/
def DB.remove (db : DB) (id : Nat) : DB :=
  ⟨db.posts.filter (fun p => p.id != id), db.nextId⟩

/-- Modelled from the spec: in-place mutation of a row's `title` and
`body` followed by `session.commit()`; the row keeps its id and its
position. -/
def DB.setPost (db : DB) (id : Nat) (title body : Json) : DB :=
  ⟨db.posts.map (fun p =>
      if p.id = id then { p with title := title, body := body } else p),
    db.nextId⟩

/-- An HTTP response as the handlers build it:
`Response(json.dumps(body), status, mimetype="application/json")`, plus
the optional `Location` header set by the create handler. The body is
kept as the JSON value serialised into it. -/
structure HttpResponse where
  status : Nat
  body : Json
  location : Option String := none
  mimetype : String := "application/json"

/-- The error-body shape used throughout: `\x7b"message": m\x7d`. -/
def msgJson (message : String) : Json :=
  Json.obj [("message", Json.str message)]

/-- The 404 body and status shared by `post_get`, `post_delete` and
`posts_edit`: `"Could not find post with id <id>"`. -/
def notFoundResp (id : Nat) : HttpResponse :=
  { status := 404, body := msgJson ("Could not find post with id " ++ toString id) }

/-- Modelled from the `jsonschema` library applied to `post_schema` of
`posts/api.py` (properties `title` and `body` of type string, both
required): `validate(data, post_schema)` raises the most relevant
`ValidationError`; this function returns its message, or `none` when the
payload conforms. Type errors on a present property are more relevant
(deeper path) than missing-property errors, and `title` is checked
before `body`. On a non-object instance the `properties` and `required`
keywords do not apply, so validation succeeds vacuously. -/
def validate_post_schema (data : Json) : Option String :=
  match data with
  | Json.obj fields =>
    (match fields.lookup "title" with
     | some (Json.str _) => none
     | some v => some (jsonRepr v ++ " is not of type 'string'")
     | none => none).orElse (fun _ =>
    (match fields.lookup "body" with
     | some (Json.str _) => none
     | some v => some (jsonRepr v ++ " is not of type 'string'")
     | none => none).orElse (fun _ =>
    (if (fields.lookup "title").isNone
      then some "'title' is a required property" else none).orElse (fun _ =>
    if (fields.lookup "body").isNone
      then some "'body' is a required property" else none)))
  | _ => none

/-- Werkzeug's membership test `mimetype in request.accept_mimetypes`: an
entry of the parsed Accept header matches the mimetype exactly, as the
universal wildcard, or as a type wildcard such as `application/*`. -/
def mimeEntryMatches (entry mimetype : String) : Bool :=
  entry == mimetype || entry == "*/*" ||
    entry == String.mk (mimetype.toList.takeWhile (fun c => c != '/')) ++ "/*"

/-- `mimetype in request.accept_mimetypes`, over the whole header. -/
def acceptsMimetype (acceptHeader : List String) (mimetype : String) : Bool :=
  acceptHeader.any (fun entry => mimeEntryMatches entry mimetype)

/-- The request headers the service inspects: the parsed Accept header
(the list of offered mimetypes) and the Content-Type mimetype. -/
structure Headers where
  accept : List String
  contentType : String

/-- The `accept` decorator of `posts/decorators.py`: the wrapped handler
runs only if the given mimetype is in `request.accept_mimetypes`. -/
def acceptCheck (hdrs : Headers) (mimetype : String) : Bool :=
  acceptsMimetype hdrs.accept mimetype

/-- Modelled from the spec: the `require` decorator, referenced by
`posts/api.py` on the create and update routes but absent from
`posts/decorators.py`. Per the spec, a write request passes only if its
Content-Type is the required mimetype; otherwise it short-circuits with
415. -/
def requireCheck (hdrs : Headers) (mimetype : String) : Bool :=
  hdrs.contentType == mimetype

/-- Python truthiness of `request.args.get(...)`: the argument is absent
(`None`) or an empty string iff it is falsy. -/
def truthy : Option String → Bool
  | none => false
  | some s => !s.isEmpty

/-- `needle` occurs at the start of `hay` (on character lists). -/
def listStartsWith : List Char → List Char → Bool
  | [], _ => true
  | _ :: _, [] => false
  | c :: cs, d :: ds => c == d && listStartsWith cs ds

/-- `needle` occurs contiguously somewhere inside `hay`. -/
def listContainsSub (needle : List Char) : List Char → Bool
  | [] => listStartsWith needle []
  | d :: rest => listStartsWith needle (d :: rest) || listContainsSub needle rest

/-- SQLAlchemy `column.contains(s)` on this store's columns: SQL
`LIKE '%s%'`, a case-sensitive substring match on a string value. A
non-string value (such as a NULL written by `posts_edit`) never
matches. -/
def colContains (v : Json) (needle : String) : Bool :=
  match v with
  | Json.str s => listContainsSub needle.toList s.toList
  | _ => false

/-- The query built by `posts_get` in `posts/api.py`: starting from all
rows, a combined filter when both arguments are truthy, then (again) a
title filter when `title_like` is truthy, then (again) a body filter
when `body_like` is truthy. -/
def posts_get_rows (db : DB) (title_like body_like : Option String) : List Post :=
  let posts := db.posts
  let posts :=
    if truthy title_like && truthy body_like then
      (posts.filter (fun p => colContains p.title (title_like.getD ""))).filter
        (fun p => colContains p.body (body_like.getD ""))
    else posts
  let posts :=
    if truthy title_like then
      posts.filter (fun p => colContains p.title (title_like.getD ""))
    else posts
  if truthy body_like then
    posts.filter (fun p => colContains p.body (body_like.getD ""))
  else posts

/-- `posts_get` (`posts/api.py`): the list endpoint, serialising the
filtered rows. -/
def posts_get (db : DB) (title_like body_like : Option String) : HttpResponse :=
  { status := 200, body := Json.arr ((posts_get_rows db title_like body_like).map Post.as_dictionary) }

/-- `post_get` (`posts/api.py`): the single-post endpoint. -/
def post_get (db : DB) (id : Nat) : HttpResponse :=
  match db.get id with
  | none => notFoundResp id
  | some post => { status := 200, body := post.as_dictionary }

/-- `post_delete` (`posts/api.py`): the delete endpoint, returning the
response together with the resulting store. -/
def post_delete (db : DB) (id : Nat) : HttpResponse × DB :=
  match db.get id with
  | none => (notFoundResp id, db)
  | some _ =>
    ({ status := 200,
       body := msgJson ("Deleted post with id " ++ toString id ++ " from database") },
      db.remove id)

/-- `posts_post` (`posts/api.py`): the create endpoint. On a schema
violation it answers 422 with the validator's message; otherwise it
inserts a fresh row built from `data["title"]` and `data["body"]` and
answers 201 with the row's representation and a Location header. An
`Except.error` is an unhandled Python exception escaping the handler. -/
def posts_post (db : DB) (data : Json) : Except String (HttpResponse × DB) :=
  match validate_post_schema data with
  | some err => Except.ok ({ status := 422, body := msgJson err }, db)
  | none => do
    let t ← data.index "title"
    let b ← data.index "body"
    let (post, db') := db.insert t b
    Except.ok ({ status := 201, body := post.as_dictionary,
                 location := some ("/api/posts/" ++ toString post.id) }, db')

/-- `posts_edit` (`posts/api.py`): the update endpoint. A missing id
answers 404; otherwise the handler overwrites the row's `title` and
`body` with `data["title"]` and `data["body"]` — no schema validation —
and echoes the raw input payload with status 200. An `Except.error` is
an unhandled Python exception (`KeyError`/`TypeError`) escaping the
handler. -/
def posts_edit (db : DB) (id : Nat) (data : Json) : Except String (HttpResponse × DB) :=
  match db.get id with
  | none => Except.ok (notFoundResp id, db)
  | some _ => do
    let t ← data.index "title"
    let b ← data.index "body"
    Except.ok ({ status := 200, body := data }, db.setPost id t b)

/-- A request to one of the five routes under `/api/posts`. -/
inductive ApiRequest where
  | list (title_like body_like : Option String)
  | get (id : Nat)
  | create (payload : Json)
  | edit (id : Nat) (payload : Json)
  | delete (id : Nat)

/-- The create and update routes carry the `require` decorator. -/
def ApiRequest.isWrite : ApiRequest → Bool
  | ApiRequest.create _ => true
  | ApiRequest.edit _ _ => true
  | _ => false

/-- The full request pipeline: the `accept` gate on every route, then the
`require` gate on the write routes, then the route handler. The store is
returned alongside the response; an `Except.error` is an unhandled
exception escaping to the framework. -/
def handle (hdrs : Headers) (db : DB) (req : ApiRequest) : Except String (HttpResponse × DB) :=
  if !acceptCheck hdrs "application/json" then
    Except.ok ({ status := 406, body := msgJson "Request must accept application/json data" }, db)
  else if req.isWrite && !requireCheck hdrs "application/json" then
    Except.ok ({ status := 415, body := msgJson "Request must contain application/json data" }, db)
  else
    match req with
    | ApiRequest.list t b => Except.ok (posts_get db t b, db)
    | ApiRequest.get id => Except.ok (post_get db id, db)
    | ApiRequest.create payload => posts_post db payload
    | ApiRequest.edit id payload => posts_edit db id payload
    | ApiRequest.delete id => Except.ok (post_delete db id)

/-- The spec's description of the list endpoint (§4.1, §8): exactly the
posts whose title contains `title_like` (when given) and whose body
contains `body_like` (when given), in store order. -/
def listSpec (db : DB) (title_like body_like : Option String) : List Post :=
  db.posts.filter (fun p =>
    Option.all (fun s => colContains p.title s) title_like &&
      Option.all (fun s => colContains p.body s) body_like)

/-- The spec's data-model invariant (§3) on one row: an assigned
(non-empty, hence non-zero) id and non-null `title` and `body`; the
emptiness of the strings themselves is not part of the invariant. -/
def Post.wellFormed (p : Post) : Bool :=
  p.id != 0 && !p.title.isNull && !p.body.isNull

/-- The spec's data-model invariant (§3) over the whole store. -/
def DB.invariant (db : DB) : Bool :=
  db.posts.all Post.wellFormed

/-- Structural well-formedness of the store: the autoincrement counter is
positive and strictly above every assigned id (so a fresh id never
collides), and the rows sit in strictly ascending id order (the
insertion order of an autoincrement primary key). -/
def DB.WF (db : DB) : Prop :=
  0 < db.nextId ∧ (∀ p ∈ db.posts, p.id < db.nextId) ∧
    db.posts.Pairwise (fun p q => p.id < q.id)

/-- Every row's `title` and `body` columns hold string values (true of
any store reachable without exercising the update handler's validation
gap). -/
def DB.allStringRows (db : DB) : Bool :=
  db.posts.all (fun p => p.title.isStr && p.body.isStr)

/-- Headers of a conforming JSON request. -/
def jsonHeaders : Headers :=
  ⟨["application/json"], "application/json"⟩

/-- A present property of a payload object that holds a string value. -/
def stringField (fields : List (String × Json)) (k : String) : Bool :=
  match fields.lookup k with
  | some (Json.str _) => true
  | _ => false

/-- A one-row store holding post 1 with string columns. -/
def sampleDB : DB :=
  ⟨[⟨1, Json.str "Example Post A", Json.str "Just a test"⟩], 2⟩

/-- The three-row store populated by the repository's filter tests. -/
def testDB : DB :=
  ⟨[⟨1, Json.str "Post with bells", Json.str "Just a test"⟩,
    ⟨2, Json.str "Post with whistles", Json.str "Still a test"⟩,
    ⟨3, Json.str "Post with bells and whistles", Json.str "Another test"⟩], 4⟩

/-- An object payload conforms to `post_schema` exactly when `title` and
`body` are both present with string values. -/
theorem validate_none_iff (fields : List (String × Json)) :
    validate_post_schema (Json.obj fields) = none ↔
      stringField fields "title" = true ∧ stringField fields "body" = true := by
  unfold validate_post_schema stringField
  cases h1 : fields.lookup "title" with
  | none =>
    cases h2 : fields.lookup "body" with
    | none => simp [h1, h2, Option.orElse]
    | some w => cases w <;> simp [h1, h2, Option.orElse]
  | some v =>
    cases h2 : fields.lookup "body" with
    | none => cases v <;> simp [h1, h2, Option.orElse]
    | some w => cases v <;> cases w <;> simp [h1, h2, Option.orElse]

/-- C9: a request whose Accept header does not include
`application/json` is answered 406 with the fixed message on every
route, with the store unchanged (the handler body never runs). -/
theorem c9_accept_mismatch_406 (hdrs : Headers) (db : DB) (req : ApiRequest)
    (h : acceptsMimetype hdrs.accept "application/json" = false) :
    handle hdrs db req =
      Except.ok ({ status := 406,
                   body := msgJson "Request must accept application/json data" }, db) := by
  simp [handle, acceptCheck, h]

theorem c9_accept_mismatch_406_witness :
    handle ⟨["application/xml"], "application/json"⟩ ⟨[], 1⟩ (ApiRequest.list none none) =
      Except.ok ({ status := 406,
                   body := msgJson "Request must accept application/json data" }, ⟨[], 1⟩) :=
  c9_accept_mismatch_406 ⟨["application/xml"], "application/json"⟩ ⟨[], 1⟩
    (ApiRequest.list none none) (by decide)

/-- C2: a write request (create or update) whose Accept header is
acceptable but whose Content-Type is not `application/json` is answered
415 with the fixed message, with the store unchanged (the handler body
never runs). -/
theorem c2_content_type_415 (hdrs : Headers) (db : DB) (req : ApiRequest)
    (hacc : acceptsMimetype hdrs.accept "application/json" = true)
    (hct : hdrs.contentType ≠ "application/json")
    (hw : req.isWrite = true) :
    handle hdrs db req =
      Except.ok ({ status := 415,
                   body := msgJson "Request must contain application/json data" }, db) := by
  simp [handle, acceptCheck, requireCheck, hacc, hw, hct]

theorem c2_content_type_415_witness :
    handle ⟨["application/json"], "application/xml"⟩ ⟨[], 1⟩
        (ApiRequest.create (Json.obj [])) =
      Except.ok ({ status := 415,
                   body := msgJson "Request must contain application/json data" }, ⟨[], 1⟩) :=
  c2_content_type_415 ⟨["application/json"], "application/xml"⟩ ⟨[], 1⟩
    (ApiRequest.create (Json.obj [])) (by decide) (by decide) (by decide)

/-- C5: when no post with the given id exists, GET, PUT and DELETE on
`/api/posts/<id>` (with conforming headers) each answer 404 with
`"Could not find post with id <id>"` and leave the store unchanged. -/
theorem c5_missing_id_404 (hdrs : Headers) (db : DB) (id : Nat) (payload : Json)
    (hacc : acceptsMimetype hdrs.accept "application/json" = true)
    (hct : hdrs.contentType = "application/json")
    (hmiss : db.get id = none) :
    handle hdrs db (ApiRequest.get id) = Except.ok (notFoundResp id, db) ∧
    handle hdrs db (ApiRequest.edit id payload) = Except.ok (notFoundResp id, db) ∧
    handle hdrs db (ApiRequest.delete id) = Except.ok (notFoundResp id, db) := by
  refine ⟨?_, ?_, ?_⟩ <;>
    simp [handle, acceptCheck, requireCheck, hacc, hct, ApiRequest.isWrite,
      post_get, posts_edit, post_delete, hmiss]

theorem c5_missing_id_404_witness :
    handle jsonHeaders ⟨[], 1⟩ (ApiRequest.get 1) = Except.ok (notFoundResp 1, ⟨[], 1⟩) ∧
    handle jsonHeaders ⟨[], 1⟩ (ApiRequest.edit 1 (Json.obj [])) =
      Except.ok (notFoundResp 1, ⟨[], 1⟩) ∧
    handle jsonHeaders ⟨[], 1⟩ (ApiRequest.delete 1) =
      Except.ok (notFoundResp 1, ⟨[], 1⟩) :=
  c5_missing_id_404 jsonHeaders ⟨[], 1⟩ 1 (Json.obj []) (by decide) rfl rfl

/-- After `DB.remove id`, a primary-key lookup of `id` finds nothing. -/
theorem get_remove_self (db : DB) (id : Nat) : (db.remove id).get id = none := by
  unfold DB.remove DB.get
  rw [List.find?_eq_none]
  intro p hp
  simp only [List.mem_filter] at hp
  simpa using hp.2

/-- C8: with conforming headers, deleting an existing post answers 200
with `"Deleted post with id <id> from database"` and removes the row, so
a subsequent GET by the same id answers 404. -/
theorem c8_delete_removes_post (hdrs : Headers) (db : DB) (id : Nat) (post : Post)
    (hacc : acceptsMimetype hdrs.accept "application/json" = true)
    (hfound : db.get id = some post) :
    handle hdrs db (ApiRequest.delete id) =
      Except.ok ({ status := 200,
                   body := msgJson ("Deleted post with id " ++ toString id ++ " from database") },
        db.remove id) ∧
    (db.remove id).get id = none ∧
    post_get (db.remove id) id = notFoundResp id := by
  refine ⟨?_, get_remove_self db id, ?_⟩
  · simp [handle, acceptCheck, hacc, ApiRequest.isWrite, post_delete, hfound]
  · simp [post_get, get_remove_self db id]

theorem c8_delete_removes_post_witness :
    handle jsonHeaders sampleDB (ApiRequest.delete 1) =
      Except.ok ({ status := 200,
                   body := msgJson ("Deleted post with id " ++ toString 1 ++ " from database") },
        sampleDB.remove 1) ∧
    (sampleDB.remove 1).get 1 = none ∧
    post_get (sampleDB.remove 1) 1 = notFoundResp 1 :=
  c8_delete_removes_post jsonHeaders sampleDB 1
    ⟨1, Json.str "Example Post A", Json.str "Just a test"⟩ (by decide) rfl

/-- C6 (amended): with conforming headers, for an existing post and a
JSON payload that is an object containing `title` and `body` keys, the
update handler overwrites the row's title and body unconditionally with
the payload's values — no schema validation, so any JSON values are
accepted — and echoes the raw input payload with status 200. -/
theorem c6_update_overwrites_and_echoes (hdrs : Headers) (db : DB) (id : Nat)
    (fields : List (String × Json)) (t b : Json) (post : Post)
    (hacc : acceptsMimetype hdrs.accept "application/json" = true)
    (hct : hdrs.contentType = "application/json")
    (hfound : db.get id = some post)
    (ht : fields.lookup "title" = some t)
    (hb : fields.lookup "body" = some b) :
    handle hdrs db (ApiRequest.edit id (Json.obj fields)) =
      Except.ok ({ status := 200, body := Json.obj fields }, db.setPost id t b) := by
  simp [handle, acceptCheck, requireCheck, hacc, hct, ApiRequest.isWrite,
    posts_edit, hfound, Json.index, ht, hb]
  rfl

theorem c6_update_overwrites_and_echoes_witness :
    handle jsonHeaders sampleDB
        (ApiRequest.edit 1 (Json.obj [("title", Json.num 5), ("body", Json.null)])) =
      Except.ok ({ status := 200,
                   body := Json.obj [("title", Json.num 5), ("body", Json.null)] },
        sampleDB.setPost 1 (Json.num 5) Json.null) :=
  c6_update_overwrites_and_echoes jsonHeaders sampleDB 1
    [("title", Json.num 5), ("body", Json.null)] (Json.num 5) Json.null
    ⟨1, Json.str "Example Post A", Json.str "Just a test"⟩ (by decide) rfl rfl rfl rfl

/-- C6 counterexample: with conforming headers and an existing post, a
PUT whose JSON payload lacks the `title` key does not answer 200 echoing
the payload — `data["title"]` raises `KeyError`, which escapes the
handler. -/
theorem c6_counterexample_missing_title_crashes :
    sampleDB.get 1 = some ⟨1, Json.str "Example Post A", Json.str "Just a test"⟩ ∧
    handle jsonHeaders sampleDB (ApiRequest.edit 1 (Json.obj [])) =
      Except.error "KeyError: title" :=
  ⟨rfl, rfl⟩

/-- C10 counterexample: a PUT for an existing id whose JSON payload has a
`title` but lacks the `body` key makes `data["body"]` raise `KeyError`:
an unhandled, non-persistence exception escapes, so the service does not
produce its own synchronous response for this request. -/
theorem c10_counterexample_missing_body_crashes :
    handle jsonHeaders sampleDB
        (ApiRequest.edit 1 (Json.obj [("title", Json.str "New")])) =
      Except.error "KeyError: body" :=
  rfl

/-- The validator's message for a present non-string value, pinned by the
repository's tests. -/
theorem validate_wrong_type_message :
    validate_post_schema
        (Json.obj [("title", Json.str "Example Post"), ("body", Json.num 32)]) =
      some "32 is not of type 'string'" :=
  rfl

/-- The validator's message for a missing required property, pinned by
the repository's tests. -/
theorem validate_missing_body_message :
    validate_post_schema (Json.obj [("title", Json.str "Example Post")]) =
      some "'body' is a required property" :=
  rfl

/-- C3: with conforming headers, a POST whose JSON object payload
violates the schema — `title` or `body` missing, or present with a
non-string value — answers 422 with the validator's human-readable
message and adds no post (store unchanged). -/
theorem c3_create_invalid_payload_422 (hdrs : Headers) (db : DB)
    (fields : List (String × Json))
    (hacc : acceptsMimetype hdrs.accept "application/json" = true)
    (hct : hdrs.contentType = "application/json")
    (hbad : stringField fields "title" = false ∨ stringField fields "body" = false) :
    ∃ err, validate_post_schema (Json.obj fields) = some err ∧
      handle hdrs db (ApiRequest.create (Json.obj fields)) =
        Except.ok ({ status := 422, body := msgJson err }, db) := by
  cases hv : validate_post_schema (Json.obj fields) with
  | none =>
    rcases (validate_none_iff fields).mp hv with ⟨h1, h2⟩
    rcases hbad with hb | hb
    · rw [hb] at h1; cases h1
    · rw [hb] at h2; cases h2
  | some err =>
    refine ⟨err, rfl, ?_⟩
    simp [handle, acceptCheck, requireCheck, hacc, hct, ApiRequest.isWrite,
      posts_post, hv]

theorem c3_create_invalid_payload_422_witness :
    ∃ err, validate_post_schema (Json.obj [("title", Json.str "Example Post")]) = some err ∧
      handle jsonHeaders ⟨[], 1⟩
          (ApiRequest.create (Json.obj [("title", Json.str "Example Post")])) =
        Except.ok ({ status := 422, body := msgJson err }, ⟨[], 1⟩) :=
  c3_create_invalid_payload_422 jsonHeaders ⟨[], 1⟩ [("title", Json.str "Example Post")]
    (by decide) rfl (Or.inr rfl)

/-- After an insert with the counter above every existing id, a
primary-key lookup of the fresh id finds exactly the new row. -/
theorem get_insert_fresh (db : DB) (t b : Json)
    (hfresh : ∀ p ∈ db.posts, p.id < db.nextId) :
    (db.insert t b).2.get db.nextId = some ⟨db.nextId, t, b⟩ := by
  unfold DB.insert DB.get
  rw [List.find?_append]
  have h1 : db.posts.find? (fun p => p.id == db.nextId) = none := by
    rw [List.find?_eq_none]
    intro p hp
    simp only [beq_iff_eq]
    exact Nat.ne_of_lt (hfresh p hp)
  rw [h1]
  simp [List.find?]

/-- C1: with conforming headers, POSTing a payload whose `title` and
`body` are strings answers 201 with the posted fields plus the fresh
server-assigned id; a GET of that id then answers 200 with exactly the
same object. -/
theorem c1_post_then_get_roundtrip (hdrs : Headers) (db : DB) (t b : String)
    (hacc : acceptsMimetype hdrs.accept "application/json" = true)
    (hct : hdrs.contentType = "application/json")
    (hwf : DB.WF db) :
    ∃ db',
      handle hdrs db
          (ApiRequest.create (Json.obj [("title", Json.str t), ("body", Json.str b)])) =
        Except.ok ({ status := 201,
                     body := Json.obj [("id", Json.num db.nextId),
                       ("title", Json.str t), ("body", Json.str b)],
                     location := some ("/api/posts/" ++ toString db.nextId) }, db') ∧
      handle hdrs db' (ApiRequest.get db.nextId) =
        Except.ok ({ status := 200,
                     body := Json.obj [("id", Json.num db.nextId),
                       ("title", Json.str t), ("body", Json.str b)] }, db') := by
  refine ⟨(db.insert (Json.str t) (Json.str b)).2, ?_, ?_⟩
  · simp [handle, acceptCheck, requireCheck, hacc, hct, ApiRequest.isWrite, posts_post,
      validate_post_schema, List.lookup, Option.orElse, Json.index, DB.insert,
      Post.as_dictionary]
    rfl
  · have hg := get_insert_fresh db (Json.str t) (Json.str b) hwf.2.1
    simp [handle, acceptCheck, hacc, ApiRequest.isWrite, post_get, hg, Post.as_dictionary]

theorem c1_post_then_get_roundtrip_witness :
    ∃ db',
      handle jsonHeaders ⟨[], 1⟩
          (ApiRequest.create (Json.obj [("title", Json.str "Example Post"),
            ("body", Json.str "Just a test")])) =
        Except.ok ({ status := 201,
                     body := Json.obj [("id", Json.num (DB.nextId ⟨[], 1⟩)),
                       ("title", Json.str "Example Post"), ("body", Json.str "Just a test")],
                     location := some ("/api/posts/" ++ toString (DB.nextId ⟨[], 1⟩)) }, db') ∧
      handle jsonHeaders db' (ApiRequest.get (DB.nextId ⟨[], 1⟩)) =
        Except.ok ({ status := 200,
                     body := Json.obj [("id", Json.num (DB.nextId ⟨[], 1⟩)),
                       ("title", Json.str "Example Post"), ("body", Json.str "Just a test")] }, db') :=
  c1_post_then_get_roundtrip jsonHeaders ⟨[], 1⟩ "Example Post" "Just a test"
    (by decide) rfl ⟨by decide, by simp, by simp⟩

/-- The empty needle occurs in every haystack. -/
theorem listContainsSub_nil (hay : List Char) : listContainsSub [] hay = true := by
  cases hay <;> simp [listContainsSub, listStartsWith]

/-- `LIKE '%%'` matches every string value. -/
theorem colContains_empty (v : Json) (h : v.isStr = true) : colContains v "" = true := by
  cases v <;> simp_all [Json.isStr, colContains, listContainsSub_nil]

/-- The chain of conditional filters built by `posts_get` is one filter:
a row passes iff it passes the title filter (when truthy) and the body
filter (when truthy) — applying the same conjunctive filter twice, as
the code does when both arguments are given, changes nothing. -/
theorem posts_get_rows_filter (db : DB) (t b : Option String) :
    posts_get_rows db t b = db.posts.filter (fun p =>
      (!truthy t || colContains p.title (t.getD "")) &&
        (!truthy b || colContains p.body (b.getD ""))) := by
  unfold posts_get_rows
  cases htt : truthy t <;> cases htb : truthy b <;>
    simp only [htt, htb, Bool.true_and, Bool.false_and, Bool.and_true, Bool.and_false,
      if_true, if_false, Bool.not_true, Bool.not_false, List.filter_filter]
  · simp [List.filter_true]
  · exact List.filter_congr (fun p hp => by cases colContains p.body (b.getD "") <;> simp)
  · exact List.filter_congr (fun p hp => by cases colContains p.title (t.getD "") <;> simp)
  · exact List.filter_congr (fun p hp => by
      cases colContains p.title (t.getD "") <;> cases colContains p.body (b.getD "") <;> simp)

/-- On a store whose rows hold string columns, the rows `posts_get`
returns are exactly the rows of the spec's description: title contains
`title_like` when given, and body contains `body_like` when given (an
argument given as the empty string is falsy for the code but its filter
matches every string column, so the two sides agree). -/
theorem posts_get_rows_eq_listSpec (db : DB) (t b : Option String)
    (hstr : db.allStringRows = true) :
    posts_get_rows db t b = listSpec db t b := by
  have hmem : ∀ p ∈ db.posts, p.title.isStr = true ∧ p.body.isStr = true := by
    intro p hp
    have := List.all_eq_true.mp hstr p hp
    simpa [Bool.and_eq_true] using this
  rw [posts_get_rows_filter]
  unfold listSpec
  apply List.filter_congr
  intro p hp
  rcases t with _ | st <;> rcases b with _ | sb
  · simp [truthy]
  · by_cases hsb : sb.isEmpty
    · rw [(String.isEmpty_iff _).mp hsb]
      simp [truthy, colContains_empty _ (hmem p hp).2]
    · simp [truthy, hsb]
  · by_cases hst : st.isEmpty
    · rw [(String.isEmpty_iff _).mp hst]
      simp [truthy, colContains_empty _ (hmem p hp).1]
    · simp [truthy, hst]
  · by_cases hst : st.isEmpty <;> by_cases hsb : sb.isEmpty
    · rw [(String.isEmpty_iff _).mp hst, (String.isEmpty_iff _).mp hsb]
      simp [truthy, colContains_empty _ (hmem p hp).1, colContains_empty _ (hmem p hp).2]
    · rw [(String.isEmpty_iff _).mp hst]
      simp [truthy, hsb, colContains_empty _ (hmem p hp).1]
    · rw [(String.isEmpty_iff _).mp hsb]
      simp [truthy, hst, colContains_empty _ (hmem p hp).2]
    · simp [truthy, hst, hsb]

/-- C4: on a store with string columns in ascending id order, the list
endpoint returns exactly the spec's set of rows — title contains
`title_like` (when given) and body contains `body_like` (when given),
all rows when neither is given — in ascending id order, and giving both
parameters selects the intersection of the two single-filter result
sets. -/
theorem c4_list_filters (db : DB) (title_like body_like : Option String)
    (hstr : db.allStringRows = true)
    (hsorted : db.posts.Pairwise (fun p q => p.id < q.id)) :
    posts_get db title_like body_like =
      { status := 200,
        body := Json.arr ((listSpec db title_like body_like).map Post.as_dictionary) } ∧
    listSpec db none none = db.posts ∧
    (∀ st sb p, p ∈ listSpec db (some st) (some sb) ↔
      p ∈ listSpec db (some st) none ∧ p ∈ listSpec db none (some sb)) ∧
    (listSpec db title_like body_like).Pairwise (fun p q => p.id < q.id) := by
  refine ⟨?_, ?_, ?_, ?_⟩
  · unfold posts_get
    rw [posts_get_rows_eq_listSpec db _ _ hstr]
  · simp [listSpec]
  · intro st sb p
    simp only [listSpec, List.mem_filter, Option.all_some, Option.all_none,
      Bool.and_eq_true, Bool.and_true]
    tauto
  · exact List.Pairwise.sublist (List.filter_sublist _) hsorted

theorem c4_list_filters_witness :
    posts_get testDB (some "whistles") (some "Another") =
      { status := 200,
        body := Json.arr ((listSpec testDB (some "whistles") (some "Another")).map
          Post.as_dictionary) } ∧
    listSpec testDB none none = testDB.posts ∧
    (∀ st sb p, p ∈ listSpec testDB (some st) (some sb) ↔
      p ∈ listSpec testDB (some st) none ∧ p ∈ listSpec testDB none (some sb)) ∧
    (listSpec testDB (some "whistles") (some "Another")).Pairwise
      (fun p q => p.id < q.id) :=
  c4_list_filters testDB (some "whistles") (some "Another") rfl
    (by simp [testDB, List.pairwise_cons])

/-- Binding a successful `Except` computation runs the continuation. -/
theorem except_bind_ok {ε α β : Type} (x : α) (f : α → Except ε β) :
    Bind.bind (Except.ok x : Except ε α) f = f x :=
  rfl

/-- Binding a failed `Except` computation propagates the error. -/
theorem except_bind_error {ε α β : Type} (e : ε) (f : α → Except ε β) :
    Bind.bind (Except.error e : Except ε α) f = Except.error e :=
  rfl

/-- A string-valued field can be extracted from its lookup. -/
theorem stringField_lookup (fields : List (String × Json)) (k : String)
    (h : stringField fields k = true) :
    ∃ s, fields.lookup k = some (Json.str s) := by
  unfold stringField at h
  cases hl : fields.lookup k with
  | none => rw [hl] at h; exact Bool.noConfusion h
  | some v =>
    rw [hl] at h
    cases v with
    | str s => exact ⟨s, rfl⟩
    | null => exact Bool.noConfusion h
    | bool x => exact Bool.noConfusion h
    | num x => exact Bool.noConfusion h
    | arr x => exact Bool.noConfusion h
    | obj x => exact Bool.noConfusion h

/-- Removing a row preserves the data-model invariant. -/
theorem invariant_remove (db : DB) (id : Nat) (h : db.invariant = true) :
    (db.remove id).invariant = true := by
  simp only [DB.invariant, DB.remove] at h ⊢
  rw [List.all_eq_true] at h ⊢
  exact fun p hp => h p (List.mem_of_mem_filter hp)

/-- Inserting a fresh row with non-null columns preserves the
data-model invariant when the id counter is positive. -/
theorem invariant_insert (db : DB) (t b : Json) (h : db.invariant = true)
    (hnext : 0 < db.nextId) (ht : t.isNull = false) (hb : b.isNull = false) :
    (db.insert t b).2.invariant = true := by
  simp only [DB.invariant, DB.insert] at h ⊢
  rw [List.all_eq_true] at h ⊢
  intro p hp
  rcases List.mem_append.mp hp with hp | hp
  · exact h p hp
  · simp only [List.mem_singleton] at hp
    subst hp
    simp [Post.wellFormed, ht, hb]
    omega

/-- Overwriting a row with non-null columns preserves the data-model
invariant. -/
theorem invariant_setPost (db : DB) (id : Nat) (t b : Json) (h : db.invariant = true)
    (ht : t.isNull = false) (hb : b.isNull = false) :
    (db.setPost id t b).invariant = true := by
  simp only [DB.invariant, DB.setPost] at h ⊢
  rw [List.all_eq_true] at h ⊢
  intro p hp
  rw [List.mem_map] at hp
  obtain ⟨q, hq, hpq⟩ := hp
  subst hpq
  have hwq := h q hq
  by_cases hid : q.id = id
  · simp only [hid, if_true, Post.wellFormed, Bool.and_eq_true, bne_iff_ne,
      Bool.not_eq_true'] at hwq ⊢
    exact ⟨⟨hwq.1.1, ht⟩, hb⟩
  · simpa [hid] using hwq

/-- C7 (amended): the data-model invariant — assigned (non-zero) id and
non-null title/body, string emptiness never checked — is preserved by
create and delete unconditionally, and by update provided the payload's
`title` and `body` values are non-null (any non-null JSON values, not
only strings, since the update handler validates nothing). -/
theorem c7_invariant_preserved (hdrs : Headers) (db : DB) (req : ApiRequest)
    (resp : HttpResponse) (db' : DB)
    (hinv : db.invariant = true)
    (hnext : 0 < db.nextId)
    (hedit : ∀ id fields, req = ApiRequest.edit id (Json.obj fields) →
      (∀ v, fields.lookup "title" = some v → v.isNull = false) ∧
      (∀ v, fields.lookup "body" = some v → v.isNull = false))
    (hok : handle hdrs db req = Except.ok (resp, db')) :
    db'.invariant = true := by
  unfold handle at hok
  split at hok
  · simp only [Except.ok.injEq, Prod.mk.injEq] at hok
    rw [← hok.2]; exact hinv
  split at hok
  · simp only [Except.ok.injEq, Prod.mk.injEq] at hok
    rw [← hok.2]; exact hinv
  cases req with
  | list t b =>
    replace hok : Except.ok (posts_get db t b, db) = Except.ok (resp, db') := hok
    simp only [Except.ok.injEq, Prod.mk.injEq] at hok
    rw [← hok.2]; exact hinv
  | get id =>
    replace hok : Except.ok (post_get db id, db) = Except.ok (resp, db') := hok
    simp only [Except.ok.injEq, Prod.mk.injEq] at hok
    rw [← hok.2]; exact hinv
  | delete id =>
    replace hok : Except.ok (post_delete db id) = Except.ok (resp, db') := hok
    unfold post_delete at hok
    cases hfind : db.get id with
    | none =>
      rw [hfind] at hok
      simp only [Except.ok.injEq, Prod.mk.injEq] at hok
      rw [← hok.2]; exact hinv
    | some p =>
      rw [hfind] at hok
      simp only [Except.ok.injEq, Prod.mk.injEq] at hok
      rw [← hok.2]
      exact invariant_remove db id hinv
  | create payload =>
    replace hok : posts_post db payload = Except.ok (resp, db') := hok
    unfold posts_post at hok
    cases hv : validate_post_schema payload with
    | some err =>
      rw [hv] at hok
      simp only [Except.ok.injEq, Prod.mk.injEq] at hok
      rw [← hok.2]; exact hinv
    | none =>
      rw [hv] at hok
      cases payload with
      | obj fields =>
        obtain ⟨h1, h2⟩ := (validate_none_iff fields).mp hv
        obtain ⟨s1, hs1⟩ := stringField_lookup fields "title" h1
        obtain ⟨s2, hs2⟩ := stringField_lookup fields "body" h2
        simp only [Json.index, hs1, hs2, except_bind_ok, DB.insert,
          Except.ok.injEq, Prod.mk.injEq] at hok
        rw [← hok.2]
        exact invariant_insert db _ _ hinv hnext rfl rfl
      | null => exact Except.noConfusion hok
      | bool v => exact Except.noConfusion hok
      | num v => exact Except.noConfusion hok
      | str v => exact Except.noConfusion hok
      | arr v => exact Except.noConfusion hok
  | edit id payload =>
    replace hok : posts_edit db id payload = Except.ok (resp, db') := hok
    unfold posts_edit at hok
    cases hfind : db.get id with
    | none =>
      rw [hfind] at hok
      simp only [Except.ok.injEq, Prod.mk.injEq] at hok
      rw [← hok.2]; exact hinv
    | some p =>
      rw [hfind] at hok
      cases payload with
      | obj fields =>
        obtain ⟨htl, hbl⟩ := hedit id fields rfl
        cases hti : fields.lookup "title" with
        | none => simp [Json.index, hti, except_bind_error] at hok
        | some tv =>
          cases hbi : fields.lookup "body" with
          | none => simp [Json.index, hti, hbi, except_bind_ok, except_bind_error] at hok
          | some bv =>
            simp only [Json.index, hti, hbi, except_bind_ok,
              Except.ok.injEq, Prod.mk.injEq] at hok
            rw [← hok.2]
            exact invariant_setPost db id tv bv hinv (htl tv hti) (hbl bv hbi)
      | null => exact Except.noConfusion hok
      | bool v => exact Except.noConfusion hok
      | num v => exact Except.noConfusion hok
      | str v => exact Except.noConfusion hok
      | arr v => exact Except.noConfusion hok

theorem c7_invariant_preserved_witness :
    DB.invariant (DB.remove sampleDB 1) = true :=
  c7_invariant_preserved jsonHeaders sampleDB (ApiRequest.delete 1)
    { status := 200,
      body := msgJson ("Deleted post with id " ++ toString 1 ++ " from database") }
    (sampleDB.remove 1) rfl (by decide) (fun id fields h => nomatch h) rfl

/-- C7 counterexample: starting from a store satisfying the invariant, a
PUT (conforming headers, existing id) whose payload maps `title` and
`body` to JSON null succeeds with 200 and persists a post with null
columns: the update operation does not preserve the invariant as the
claim states. -/
theorem c7_counterexample_null_update_breaks_invariant :
    DB.invariant sampleDB = true ∧
    handle jsonHeaders sampleDB
        (ApiRequest.edit 1 (Json.obj [("title", Json.null), ("body", Json.null)])) =
      Except.ok ({ status := 200,
                   body := Json.obj [("title", Json.null), ("body", Json.null)] },
        sampleDB.setPost 1 Json.null Json.null) ∧
    DB.invariant (sampleDB.setPost 1 Json.null Json.null) = false :=
  ⟨rfl, rfl, rfl⟩

/-- C10 (amended): every request yields a synchronous response — no
exception escapes the handlers — provided each create payload is a JSON
object and each update payload is a JSON object containing `title` and
`body` keys; without that proviso the handlers' raw dictionary accesses
can raise (see the counterexample), beyond the persistence-layer
failures the claim already excludes. -/
theorem c10_no_crash_for_wellformed_payloads (hdrs : Headers) (db : DB) (req : ApiRequest)
    (hcreate : ∀ payload, req = ApiRequest.create payload →
      ∃ fields, payload = Json.obj fields)
    (hedit : ∀ id payload, req = ApiRequest.edit id payload →
      ∃ fields, payload = Json.obj fields ∧
        (fields.lookup "title").isSome = true ∧ (fields.lookup "body").isSome = true) :
    ∃ resp db', handle hdrs db req = Except.ok (resp, db') := by
  unfold handle
  split
  · exact ⟨_, _, rfl⟩
  split
  · exact ⟨_, _, rfl⟩
  cases req with
  | list t b => exact ⟨_, _, rfl⟩
  | get id => exact ⟨_, _, rfl⟩
  | delete id => exact ⟨_, _, rfl⟩
  | create payload =>
    obtain ⟨fields, rfl⟩ := hcreate payload rfl
    show ∃ resp db', posts_post db (Json.obj fields) = Except.ok (resp, db')
    unfold posts_post
    cases hv : validate_post_schema (Json.obj fields) with
    | some err => exact ⟨_, _, rfl⟩
    | none =>
      obtain ⟨h1, h2⟩ := (validate_none_iff fields).mp hv
      obtain ⟨s1, hs1⟩ := stringField_lookup fields "title" h1
      obtain ⟨s2, hs2⟩ := stringField_lookup fields "body" h2
      simp only [Json.index, hs1, hs2, except_bind_ok]
      exact ⟨_, _, rfl⟩
  | edit id payload =>
    obtain ⟨fields, rfl, ht, hb⟩ := hedit id payload rfl
    show ∃ resp db', posts_edit db id (Json.obj fields) = Except.ok (resp, db')
    unfold posts_edit
    cases hfind : db.get id with
    | none => exact ⟨_, _, rfl⟩
    | some p =>
      obtain ⟨tv, htv⟩ := Option.isSome_iff_exists.mp ht
      obtain ⟨bv, hbv⟩ := Option.isSome_iff_exists.mp hb
      simp only [Json.index, htv, hbv, except_bind_ok]
      exact ⟨_, _, rfl⟩

theorem c10_no_crash_for_wellformed_payloads_witness :
    ∃ resp db', handle jsonHeaders sampleDB (ApiRequest.get 1) = Except.ok (resp, db') :=
  c10_no_crash_for_wellformed_payloads jsonHeaders sampleDB (ApiRequest.get 1)
    (fun _ h => nomatch h) (fun _ _ h => nomatch h)
